import Mathlib

/-!
Shallow embedding of the state-reconciliation core of the mernify repository:

* `RoomVideoPlayer.tsx` (src/unnamed/part_001, first document): the playback
  synchronization component — the remote-update handler (hydration + drift
  reconciliation), the throttled periodic time report, and the play/pause report.
* The whiteboard component (src/unnamed/part_003): stroke drawing, broadcast
  handlers (`draw_batch`, `clear`), history load on join, and local clear.
* `backend/routes/strokes.js`: the durable stroke store's list operation.

Times are modelled as rationals (milliseconds for wall-clock instants,
seconds for playback positions), matching the JavaScript `number` arithmetic
on the well-formed numeric inputs the component actually receives.
Imperative calls on the opaque player handle / canvas context are reified as
command lists, in emission order.
-/

namespace Mernify

/-! Section: PlaybackSync constants and data (RoomVideoPlayer.tsx lines 7-8) -/

/-- Constant `SEEK_THRESHOLD = 1.25` seconds (line 7). -/
def SEEK_THRESHOLD : ℚ := 1.25

/-- Constant `UPDATE_THROTTLE_MS = 1500` milliseconds (line 8). -/
def UPDATE_THROTTLE_MS : ℚ := 1500

/-- A `room_playback` row as consumed by the remote-update handler.
`playback_time` is seconds; `updated_at` is a wall-clock instant in
milliseconds (`new Date(row.updated_at).getTime()`), absent when the row has
no `updated_at`.  For the numeric rows the handler receives,
`Number(row.playback_time) || 0` is the identity, so `playback_time` is
modelled as the coerced rational directly. -/
structure Snapshot where
  playback_time : ℚ
  is_playing : Bool
  updated_at : Option ℚ
deriving Repr, DecidableEq

/-- A call on the player-control handle, reified.  `registerControls` in
`VideoPlayer.tsx` always hands over an object with all of `seekTo`,
`getCurrentTime`, `setPlaying`, so the handle is modelled all-or-nothing:
`Option ℚ`, carrying the value `getCurrentTime()` returns while attached. -/
inductive PlayerCmd
  | seek (t : ℚ)
  | setPlaying (b : Bool)
deriving Repr, DecidableEq

/-- The component's mutable refs: `lastSentRef`, `pendingSeekRef`,
`isPlayingRef`, `didInitRef`, `suppressEchoRef`. -/
structure SyncState where
  lastSent : ℚ
  pendingSeek : Option ℚ
  isPlayingRef : Bool
  didInit : Bool
  suppressEcho : Bool
deriving Repr, DecidableEq

/-- Initial ref values at mount (lines 33-39). -/
def initialSyncState : SyncState :=
  { lastSent := 0, pendingSeek := none, isPlayingRef := false
    didInit := false, suppressEcho := false }

/-- One outbound write of the remote playback row (`sendLocalUpdate` payload,
restricted to the fields the claims mention). -/
structure PlaybackWrite where
  is_playing : Bool
  playback_time : ℚ
  client_ts : ℚ
deriving Repr, DecidableEq

/-! Section: the remote-update handler (lines 43-104)

The handler is split exactly along its two branches: the initial hydrate
block (lines 54-70) and the synced reconciliation logic (lines 72-103).
The `setTimeout` that clears `suppressEchoRef` after the guard window is a
separate event-loop task; it is modelled as the separate transition
`echoTimerFire`. -/

/-- Expected-position computation (lines 74-82):
`expectedTime = playback_time`, plus `(Date.now() - updatedAtMs)/1000` when
`is_playing`; a missing `updated_at` falls back to `Date.now()` itself. -/
def expectedTime (now : ℚ) (r : Snapshot) : ℚ :=
  let base := r.playback_time
  if r.is_playing then
    let updatedAtMs := r.updated_at.getD now
    base + (now - updatedAtMs) / 1000
  else
    base

/-- The initial hydrate block (lines 54-70): mark `didInit`, then — if the
player handle is attached — suppress echo, seek to the saved time, force
paused; otherwise stash the saved time in `pendingSeekRef`. -/
def hydrateStep (player : Option ℚ) (s : SyncState) (r : Snapshot) :
    SyncState × List PlayerCmd :=
  let initialTime := r.playback_time
  match player with
  | some _ =>
      ({ s with didInit := true, suppressEcho := true, isPlayingRef := false },
       [PlayerCmd.seek initialTime, PlayerCmd.setPlaying false])
  | none =>
      ({ s with didInit := true, pendingSeek := some initialTime }, [])

/-- The synced-state logic (lines 72-103): drop the row during the echo
guard; otherwise compute the expected time, seek only when drift exceeds
`SEEK_THRESHOLD` (stashing the target when the player is not attached), and
reconcile the playing state last. -/
def syncedStep (now : ℚ) (player : Option ℚ) (s : SyncState) (r : Snapshot) :
    SyncState × List PlayerCmd :=
  if s.suppressEcho then (s, [])
  else
    let expected := expectedTime now r
    match player with
    | some localTime =>
        let diff := |localTime - expected|
        let seekPart :
            SyncState × List PlayerCmd :=
          if SEEK_THRESHOLD < diff then
            ({ s with suppressEcho := true }, [PlayerCmd.seek expected])
          else (s, [])
        ({ seekPart.1 with isPlayingRef := r.is_playing },
         seekPart.2 ++ [PlayerCmd.setPlaying r.is_playing])
    | none =>
        ({ s with pendingSeek := some expected, isPlayingRef := r.is_playing }, [])

/-- The whole remote-update callback (lines 43-104): `if (!row) return;`,
then hydrate once, then the synced logic. -/
def onRemoteUpdate (now : ℚ) (player : Option ℚ) (s : SyncState)
    (row : Option Snapshot) : SyncState × List PlayerCmd :=
  match row with
  | none => (s, [])
  | some r =>
      if s.didInit then syncedStep now player s r else hydrateStep player s r

/-- The `setTimeout(() => { suppressEchoRef.current = false; }, ...)` task
firing (lines 64 and 92). -/
def echoTimerFire (s : SyncState) : SyncState :=
  { s with suppressEcho := false }

/-- Callback `setPlayerControls` (lines 178-184): when controls attach, flush a
pending seek once. -/
def setPlayerControls (s : SyncState) : SyncState × List PlayerCmd :=
  match s.pendingSeek with
  | some t => ({ s with pendingSeek := none }, [PlayerCmd.seek t])
  | none => (s, [])

/-! Section: outbound reports (lines 122-158) -/

/-- Callback `handleLocalTimeUpdate` (lines 122-142): the periodic time report.
Returns `none` when the throttle suppresses the write.  The write carries
`is_playing: isPlayingRef.current`. -/
def handleLocalTimeUpdate (now : ℚ) (s : SyncState) (time : ℚ) :
    SyncState × Option PlaybackWrite :=
  if now - s.lastSent < UPDATE_THROTTLE_MS then (s, none)
  else
    ({ s with lastSent := now },
     some { is_playing := s.isPlayingRef, playback_time := time, client_ts := now })

/-- Callback `handleLocalPlayPause` (lines 145-158): set `isPlayingRef` first, then
always attempt the write (no throttle check; a failed send is only logged,
so the state update stands regardless of the send's outcome). -/
def handleLocalPlayPause (now : ℚ) (s : SyncState) (isPlaying : Bool)
    (currentTime : ℚ) : SyncState × PlaybackWrite :=
  ({ s with isPlayingRef := isPlaying },
   { is_playing := isPlaying, playback_time := currentTime, client_ts := now })

/-- Run a sequence of periodic time-report calls `(now, time)` from a state,
collecting the wall-clock instants at which a write actually went out. -/
def runTimeUpdates (s : SyncState) : List (ℚ × ℚ) → List ℚ
  | [] => []
  | (now, t) :: rest =>
      let step := handleLocalTimeUpdate now s t
      match step.2 with
      | some _ => now :: runTimeUpdates step.1 rest
      | none => runTimeUpdates step.1 rest

/-- The seek targets among a command list, in order. -/
def seeksOf (cmds : List PlayerCmd) : List ℚ :=
  cmds.filterMap fun c =>
    match c with
    | PlayerCmd.seek t => some t
    | _ => none

/-! Section: StrokeSync, the whiteboard (src/unnamed/part_003) -/

/-- A stroke point's `type` field: `'start' | 'move'`. -/
inductive PointKind
  | start
  | move
deriving Repr, DecidableEq

/-- One point of a stroke, `{type, x, y}`. -/
structure StrokePoint where
  type : PointKind
  x : ℚ
  y : ℚ
deriving Repr, DecidableEq

/-- An entry of the in-memory stroke list `strokesStoreRef` (line 39):
`{ points, color }`. -/
structure StoredStroke where
  points : List StrokePoint
  color : String
deriving Repr, DecidableEq

/-- A call on the 2D canvas context, reified in emission order. -/
inductive CanvasOp
  | beginPath
  | moveTo (x y : ℚ)
  | lineTo (x y : ℚ)
  | stroke
  | clearRect
  | setStrokeStyle (c : String)
deriving Repr, DecidableEq

/-- The whiteboard component's stroke-relevant refs: `strokesStoreRef`, and
`contextRef` modelled as `Option String` carrying the context's current
`strokeStyle` when attached (`canvasRef` is attached exactly when the
context is, both being set together in `setupCanvas`). -/
structure WhiteboardState where
  strokesStore : List StoredStroke
  ctx : Option String
deriving Repr, DecidableEq

/-- The point loop of `drawStroke` (lines 120-133): `isNewPath` starts true,
so the first point always begins a fresh path; a `'start'` point also begins
one; any other `'move'` point extends and strokes the current path. -/
def drawStrokeLoop : Bool → List StrokePoint → List CanvasOp
  | _, [] => []
  | isNewPath, p :: rest =>
      if p.type = PointKind.start || isNewPath then
        CanvasOp.beginPath :: CanvasOp.moveTo p.x p.y :: drawStrokeLoop false rest
      else if p.type = PointKind.move then
        CanvasOp.lineTo p.x p.y :: CanvasOp.stroke :: drawStrokeLoop isNewPath rest
      else
        drawStrokeLoop isNewPath rest

/-- Function `drawStroke` (lines 113-136): no-op without a context or on an empty
point list; otherwise save the stroke style, set the stroke's color, run the
point loop, and restore the saved style. -/
def drawStroke (ctx : Option String) (points : List StrokePoint)
    (color : String) : List CanvasOp :=
  match ctx with
  | none => []
  | some currentStrokeStyle =>
      if points.length = 0 then []
      else
        CanvasOp.setStrokeStyle color ::
          (drawStrokeLoop true points ++ [CanvasOp.setStrokeStyle currentStrokeStyle])

/-- Function `repaintAll` (lines 41-47): replay the whole in-memory stroke list. -/
def repaintAll (w : WhiteboardState) : List CanvasOp :=
  w.strokesStore.foldl (fun ops s => ops ++ drawStroke w.ctx s.points s.color) []

/-- The `draw_batch` broadcast handler (lines 178-184): drop the batch when
it was sent by the local participant; otherwise draw it and append it to the
in-memory stroke list. -/
def onDrawBatch (localUserId : String) (w : WhiteboardState)
    (senderId : String) (points : List StrokePoint) (color : String) :
    WhiteboardState × List CanvasOp :=
  if senderId = localUserId then (w, [])
  else
    ({ w with strokesStore := w.strokesStore ++ [⟨points, color⟩] },
     drawStroke w.ctx points color)

/-- The `clear` broadcast handler (lines 208-215): wipe the visible canvas
only (a missing canvas/context makes it a no-op); the in-memory stroke list
is untouched. -/
def onClearEvent (w : WhiteboardState) : WhiteboardState × List CanvasOp :=
  match w.ctx with
  | none => (w, [])
  | some _ => (w, [CanvasOp.clearRect])

/-- An outbound broadcast message sent by the whiteboard. -/
inductive BroadcastMsg
  | drawBatch (userId : String) (points : List StrokePoint) (color : String)
  | clearMsg (userId : String)
deriving Repr, DecidableEq

/-- Function `clearCanvas` (lines 355-380): wipe the local canvas, issue the durable
delete (whose failure is only logged — `deleteSucceeds` has no effect on the
local state), then broadcast `clear`.  The in-memory stroke list is never
modified. -/
def clearCanvas (localUserId : String) (deleteSucceeds : Bool)
    (w : WhiteboardState) : WhiteboardState × List CanvasOp × List BroadcastMsg :=
  (w, [CanvasOp.clearRect], [BroadcastMsg.clearMsg localUserId])

/-! Section: the durable stroke store (backend/routes/strokes.js) -/

/-- A stored stroke row of the `Stroke` collection. -/
structure StrokeRecord where
  room_id : Int
  strokes : List StrokePoint
  color : String
  created_at : ℚ
deriving Repr, DecidableEq

/-- The order `GET /strokes/:roomId` sorts by: `created_at` ascending. -/
def byCreatedAt (a b : StrokeRecord) : Prop :=
  a.created_at ≤ b.created_at

instance : DecidableRel byCreatedAt := fun a b =>
  inferInstanceAs (Decidable (a.created_at ≤ b.created_at))

instance : IsTotal StrokeRecord byCreatedAt :=
  ⟨fun a b => le_total a.created_at b.created_at⟩

instance : IsTrans StrokeRecord byCreatedAt :=
  ⟨fun _ _ _ h1 h2 => le_trans h1 h2⟩

/-- Route `GET /strokes/:roomId` (strokes.js lines 6-14):
`Stroke.find({ room_id }).sort({ created_at: 1 })` — the room's rows,
stably sorted by `created_at` ascending. -/
def listStrokes (db : List StrokeRecord) (roomId : Int) : List StrokeRecord :=
  List.insertionSort byCreatedAt (db.filter fun r => r.room_id = roomId)

/-! Section: the client event loop around join (lines 156-252)

The broadcast handlers are registered before `channel.subscribe`; the
initial history load happens inside the async subscribe callback, *after*
`await fetch(...)` resolves — a separate event-loop task.  A client run is
therefore a sequence of atomic tasks: live broadcast deliveries, and the
completion of the history fetch. -/

/-- The body of the initial stroke load (lines 232-235): `data.forEach`,
drawing each fetched record and appending it to the in-memory list, in
fetched order. -/
def loadHistory (w : WhiteboardState) : List StrokeRecord →
    WhiteboardState × List CanvasOp
  | [] => (w, [])
  | record :: rest =>
      let ops := drawStroke w.ctx record.strokes record.color
      let w' := { w with strokesStore := w.strokesStore ++ [⟨record.strokes, record.color⟩] }
      let tail := loadHistory w' rest
      (tail.1, ops ++ tail.2)

/-- One atomic event-loop task of the whiteboard client after subscription. -/
inductive ClientEvent
  | historyLoaded (data : List StrokeRecord)
  | broadcastDrawBatch (senderId : String) (points : List StrokePoint) (color : String)
  | broadcastClear (senderId : String)
deriving Repr, DecidableEq

/-- Dispatch one task. -/
def processEvent (localUserId : String) (w : WhiteboardState) :
    ClientEvent → WhiteboardState × List CanvasOp
  | ClientEvent.historyLoaded data => loadHistory w data
  | ClientEvent.broadcastDrawBatch sid pts c => onDrawBatch localUserId w sid pts c
  | ClientEvent.broadcastClear _ => onClearEvent w

/-- Run a task sequence, returning the final state. -/
def runEvents (localUserId : String) (w : WhiteboardState) :
    List ClientEvent → WhiteboardState
  | [] => w
  | e :: rest => runEvents localUserId (processEvent localUserId w e).1 rest

/-! Section: theorems -/

/-- C1: in the Synced state (`didInit` set, outside the echo-suppression
guard), for a remote snapshot with the local player time readable, the
handler issues no seek when `|local - expected| ≤ SEEK_THRESHOLD`, and
exactly one corrective seek, to the expected position, when the drift is
strictly greater. -/
theorem c1_drift_tolerance (now lt : ℚ) (s : SyncState) (r : Snapshot)
    (hInit : s.didInit = true) (hGuard : s.suppressEcho = false) :
    seeksOf (onRemoteUpdate now (some lt) s (some r)).2 =
      if SEEK_THRESHOLD < |lt - expectedTime now r| then [expectedTime now r]
      else [] := by
  by_cases h : SEEK_THRESHOLD < |lt - expectedTime now r| <;>
    simp [onRemoteUpdate, hInit, syncedStep, hGuard, seeksOf, h]

/-- Witness for C1: the spec's worked example — local time `101.2`, snapshot
position `100`, playing, observed `3000` ms after `updated_at`: exactly one
seek, to `103`. -/
theorem c1_witness :
    seeksOf (onRemoteUpdate 3000 (some (506/5))
        { initialSyncState with didInit := true } (some ⟨100, true, some 0⟩)).2 =
      [103] := by
  have h := c1_drift_tolerance 3000 (506/5) { initialSyncState with didInit := true }
      ⟨100, true, some 0⟩ rfl rfl
  have he : expectedTime 3000 ⟨100, true, some 0⟩ = 103 := by
    simp only [expectedTime, Option.getD]
    norm_num
  have hd : SEEK_THRESHOLD < |(506/5 : ℚ) - (103 : ℚ)| := by
    rw [show |(506/5 : ℚ) - 103| = 9/5 by rw [abs_of_nonpos] <;> norm_num]
    norm_num [SEEK_THRESHOLD]
  rw [h, he, if_pos hd]

/-- C2: the expected position computed by the reconciliation handler is
`position + (now - updatedAt)/1000` when the snapshot is playing and the
bare `position` otherwise; and on the spec's example (position 100, playing,
observed 3 s after `updatedAt`, local time 101.2, threshold 1.25) the
expected position is 103 and a seek to 103 is issued. -/
theorem c2_expected_position :
    (∀ (now pt : ℚ) (ip : Bool) (u : ℚ),
        expectedTime now ⟨pt, ip, some u⟩ =
          if ip then pt + (now - u) / 1000 else pt)
    ∧ ∀ T : ℚ,
        expectedTime (T + 3000) ⟨100, true, some T⟩ = 103 ∧
        (onRemoteUpdate (T + 3000) (some (506/5))
            { initialSyncState with didInit := true }
            (some ⟨100, true, some T⟩)).2 =
          [PlayerCmd.seek 103, PlayerCmd.setPlaying true] := by
  constructor
  · intro now pt ip u
    cases ip <;> simp [expectedTime]
  · intro T
    have he : expectedTime (T + 3000) ⟨100, true, some T⟩ = 103 := by
      simp only [expectedTime, Option.getD]
      norm_num
    refine ⟨he, ?_⟩
    have hd : SEEK_THRESHOLD < |(506/5 : ℚ) - (103 : ℚ)| := by
      rw [show |(506/5 : ℚ) - 103| = 9/5 by rw [abs_of_nonpos] <;> norm_num]
      norm_num [SEEK_THRESHOLD]
    simp [onRemoteUpdate, syncedStep, initialSyncState, he, hd]

/-- C5: a `draw_batch` event whose sender is the local participant leaves
the whole stroke state unchanged and draws nothing. -/
theorem c5_self_echo_suppressed (localUserId senderId : String)
    (w : WhiteboardState) (points : List StrokePoint) (color : String)
    (h : senderId = localUserId) :
    onDrawBatch localUserId w senderId points color = (w, []) := by
  simp [onDrawBatch, h]

/-- Witness for C5 at a concrete looped-back batch. -/
theorem c5_witness :
    onDrawBatch "me" { strokesStore := [], ctx := some "#3ecf8e" } "me"
        [⟨PointKind.start, 1, 2⟩] "#f43f5e" =
      ({ strokesStore := [], ctx := some "#3ecf8e" }, []) :=
  c5_self_echo_suppressed "me" "me" _ _ _ rfl

/-- C9: the play/pause report always produces a write (no throttle check),
the write's `is_playing` equals the reported state, and the play-state
memory is updated unconditionally (independently of the send's outcome);
by contrast, the periodic report is suppressed whenever it falls inside the
throttle interval. -/
theorem c9_playpause_bypasses_throttle :
    (∀ (now : ℚ) (s : SyncState) (b : Bool) (t : ℚ),
        (handleLocalPlayPause now s b t).2 =
            { is_playing := b, playback_time := t, client_ts := now } ∧
        (handleLocalPlayPause now s b t).1 = { s with isPlayingRef := b })
    ∧ ∀ (now : ℚ) (s : SyncState) (t : ℚ),
        now - s.lastSent < UPDATE_THROTTLE_MS →
          (handleLocalTimeUpdate now s t).2 = none := by
  refine ⟨fun now s b t => ⟨rfl, rfl⟩, fun now s t h => ?_⟩
  simp [handleLocalTimeUpdate, h]

/-- Witness for C9: at an instant inside the throttle interval the periodic
write is suppressed while the play/pause write still goes out. -/
theorem c9_witness :
    (handleLocalPlayPause 100 initialSyncState true 42).2 =
        { is_playing := true, playback_time := 42, client_ts := 100 } ∧
    (handleLocalTimeUpdate 100 initialSyncState 42).2 = none :=
  ⟨(c9_playpause_bypasses_throttle.1 100 initialSyncState true 42).1,
   c9_playpause_bypasses_throttle.2 100 initialSyncState 42
     (by norm_num [initialSyncState, UPDATE_THROTTLE_MS])⟩

/-- C10: on a non-empty point list `drawStroke` begins a fresh path at the
first point whatever its kind (`beginPath` + `moveTo` precede everything
else), and it is a no-op on a missing context or an empty list. -/
theorem c10_fresh_path_on_first_point :
    (∀ (ctxStyle color : String) (p : StrokePoint) (rest : List StrokePoint),
        drawStroke (some ctxStyle) (p :: rest) color =
          CanvasOp.setStrokeStyle color :: CanvasOp.beginPath ::
            CanvasOp.moveTo p.x p.y ::
              (drawStrokeLoop false rest ++ [CanvasOp.setStrokeStyle ctxStyle]))
    ∧ (∀ (points : List StrokePoint) (color : String),
        drawStroke none points color = [])
    ∧ ∀ (ctx : Option String) (color : String), drawStroke ctx [] color = [] := by
  refine ⟨fun ctxStyle color p rest => ?_, fun points color => rfl,
    fun ctx color => ?_⟩
  · simp [drawStroke, drawStrokeLoop]
  · cases ctx <;> rfl

/-- Helper: one unfolding step of `runTimeUpdates` through the handler. -/
theorem runTimeUpdates_cons (s : SyncState) (now t : ℚ) (rest : List (ℚ × ℚ)) :
    runTimeUpdates s ((now, t) :: rest) =
      if now - s.lastSent < UPDATE_THROTTLE_MS then runTimeUpdates s rest
      else now :: runTimeUpdates { s with lastSent := now } rest := by
  rw [runTimeUpdates]
  by_cases h : now - s.lastSent < UPDATE_THROTTLE_MS <;>
    simp [handleLocalTimeUpdate, h]

/-- Helper: every write instant emitted by a run of the periodic report lies
at least one throttle interval past the state's `lastSent`. -/
theorem runTimeUpdates_lowerBound (calls : List (ℚ × ℚ)) :
    ∀ (s : SyncState), ∀ x ∈ runTimeUpdates s calls,
      s.lastSent + UPDATE_THROTTLE_MS ≤ x := by
  induction calls with
  | nil => intro s x hx; simp [runTimeUpdates] at hx
  | cons c rest ih =>
      intro s x hx
      obtain ⟨now, t⟩ := c
      rw [runTimeUpdates_cons] at hx
      by_cases h : now - s.lastSent < UPDATE_THROTTLE_MS
      · rw [if_pos h] at hx
        exact ih s x hx
      · rw [if_neg h] at hx
        push_neg at h
        rcases List.mem_cons.mp hx with rfl | hx
        · linarith
        · have hy := ih { s with lastSent := now } x hx
          simp only at hy
          have hU : (0 : ℚ) ≤ UPDATE_THROTTLE_MS := by norm_num [UPDATE_THROTTLE_MS]
          linarith

/-- C8: any two write instants emitted by the periodic local-time report are
separated by at least `UPDATE_THROTTLE_MS`, regardless of how frequently the
report is invoked. -/
theorem c8_throttle_interval (s : SyncState) (calls : List (ℚ × ℚ)) :
    (runTimeUpdates s calls).Pairwise
      (fun a b => a + UPDATE_THROTTLE_MS ≤ b) := by
  induction calls generalizing s with
  | nil => simp [runTimeUpdates]
  | cons c rest ih =>
      obtain ⟨now, t⟩ := c
      rw [runTimeUpdates_cons]
      by_cases h : now - s.lastSent < UPDATE_THROTTLE_MS
      · rw [if_pos h]
        exact ih s
      · rw [if_neg h]
        refine List.Pairwise.cons ?_ (ih _)
        intro x hx
        have hy := runTimeUpdates_lowerBound rest { s with lastSent := now } x hx
        simpa using hy

/-- Helper: the Synced-state logic never changes `didInit`. -/
theorem syncedStep_preserves_didInit (now : ℚ) (player : Option ℚ)
    (s : SyncState) (r : Snapshot) :
    ((syncedStep now player s r).1).didInit = s.didInit := by
  unfold syncedStep
  by_cases h : s.suppressEcho
  · simp [h]
  · cases player with
    | none => simp [h]
    | some lt =>
        by_cases h2 : SEEK_THRESHOLD < |lt - expectedTime now r| <;> simp [h, h2]

/-- C3: hydration-once — the first remote snapshot (player attached)
produces exactly one seek, to the stored position, and forces the paused
play state, independently of the drift inputs; with the player absent the
position is stashed and flushed as the single seek by `setPlayerControls`;
every later snapshot is routed to the Synced-state logic, `didInit` never
reverts, and a Synced-state snapshot may alter play state. -/
theorem c3_hydration_once :
    (∀ (now lt : ℚ) (s : SyncState) (r : Snapshot), s.didInit = false →
        onRemoteUpdate now (some lt) s (some r) =
          ({ s with didInit := true, suppressEcho := true, isPlayingRef := false },
           [PlayerCmd.seek r.playback_time, PlayerCmd.setPlaying false]))
    ∧ (∀ (now : ℚ) (s : SyncState) (r : Snapshot), s.didInit = false →
        onRemoteUpdate now none s (some r) =
          ({ s with didInit := true, pendingSeek := some r.playback_time }, []) ∧
        setPlayerControls { s with didInit := true, pendingSeek := some r.playback_time } =
          ({ s with didInit := true, pendingSeek := none },
           [PlayerCmd.seek r.playback_time]))
    ∧ (∀ (now : ℚ) (player : Option ℚ) (s : SyncState) (r : Snapshot),
        s.didInit = true →
          onRemoteUpdate now player s (some r) = syncedStep now player s r)
    ∧ (∀ (now : ℚ) (player : Option ℚ) (s : SyncState) (row : Option Snapshot),
        s.didInit = true → ((onRemoteUpdate now player s row).1).didInit = true)
    ∧ ∃ (now lt : ℚ) (s : SyncState) (r : Snapshot), s.didInit = true ∧
        PlayerCmd.setPlaying true ∈ (onRemoteUpdate now (some lt) s (some r)).2 := by
  refine ⟨?_, ?_, ?_, ?_, ?_⟩
  · intro now lt s r h
    simp [onRemoteUpdate, h, hydrateStep]
  · intro now s r h
    constructor
    · simp [onRemoteUpdate, h, hydrateStep]
    · simp [setPlayerControls]
  · intro now player s r h
    simp [onRemoteUpdate, h]
  · intro now player s row h
    cases row with
    | none => simpa [onRemoteUpdate] using h
    | some r =>
        simp only [onRemoteUpdate, h, if_true]
        rw [syncedStep_preserves_didInit]
        exact h
  · refine ⟨0, 0, ⟨0, none, false, true, false⟩, ⟨0, true, some 0⟩, rfl, ?_⟩
    norm_num [onRemoteUpdate, syncedStep, expectedTime, SEEK_THRESHOLD]

/-- Witness for C3: a concrete fresh-state hydration. -/
theorem c3_witness :
    onRemoteUpdate 0 (some 5) initialSyncState (some ⟨37, true, some 0⟩) =
      ({ initialSyncState with
          didInit := true, suppressEcho := true, isPlayingRef := false },
       [PlayerCmd.seek 37, PlayerCmd.setPlaying false]) :=
  c3_hydration_once.1 0 5 initialSyncState ⟨37, true, some 0⟩ rfl

/-- C4 counterexample: during the echo-suppression guard window the handler
returns before reconciling play state — at this Synced state with
`suppressEcho` set, a playing snapshot produces no command at all and the
play-state memory stays paused, contradicting the claim that reconciliation
happens also during the guard window. -/
theorem c4_counterexample :
    (onRemoteUpdate 0 (some 0) ⟨0, none, false, true, true⟩
        (some ⟨100, true, some 0⟩)).2 = [] ∧
    PlayerCmd.setPlaying true ∉
      (onRemoteUpdate 0 (some 0) ⟨0, none, false, true, true⟩
        (some ⟨100, true, some 0⟩)).2 ∧
    ((onRemoteUpdate 0 (some 0) ⟨0, none, false, true, true⟩
        (some ⟨100, true, some 0⟩)).1).isPlayingRef = false := by
  refine ⟨rfl, ?_, rfl⟩
  simp [onRemoteUpdate, syncedStep]

/-- C4 amended: for Synced-state snapshots with the player attached and not
dropped by the echo-suppression guard, the command list is any corrective
seek followed by the play-state reconciliation as the final command, and the
play-state memory is set to the snapshot's; a snapshot arriving during the
guard window is ignored entirely. -/
theorem c4_reconcile_play_last (now lt : ℚ) (s : SyncState) (r : Snapshot)
    (hInit : s.didInit = true) :
    (s.suppressEcho = false →
      (onRemoteUpdate now (some lt) s (some r)).2 =
        (if SEEK_THRESHOLD < |lt - expectedTime now r|
          then [PlayerCmd.seek (expectedTime now r)] else [])
          ++ [PlayerCmd.setPlaying r.is_playing] ∧
      ((onRemoteUpdate now (some lt) s (some r)).1).isPlayingRef = r.is_playing) ∧
    (s.suppressEcho = true →
      onRemoteUpdate now (some lt) s (some r) = (s, [])) := by
  constructor
  · intro hGuard
    constructor
    · by_cases h : SEEK_THRESHOLD < |lt - expectedTime now r| <;>
        simp [onRemoteUpdate, hInit, syncedStep, hGuard, h]
    · by_cases h : SEEK_THRESHOLD < |lt - expectedTime now r| <;>
        simp [onRemoteUpdate, hInit, syncedStep, hGuard, h]
  · intro hGuard
    simp [onRemoteUpdate, hInit, syncedStep, hGuard]

/-- Witness for C4 (amended): a concrete in-tolerance snapshot yields
exactly the final play-state command. -/
theorem c4_witness :
    (onRemoteUpdate 0 (some 0) { initialSyncState with didInit := true }
        (some ⟨0, false, some 0⟩)).2 = [PlayerCmd.setPlaying false] := by
  have h := ((c4_reconcile_play_last 0 0 { initialSyncState with didInit := true }
      ⟨0, false, some 0⟩ rfl).1 rfl).1
  have hc : ¬ SEEK_THRESHOLD < |(0:ℚ) - expectedTime 0 ⟨0, false, some 0⟩| := by
    norm_num [expectedTime, SEEK_THRESHOLD]
  rw [h, if_neg hc]
  rfl

/-- C6 amended: a received `clear` wipes only the visible canvas (the state,
including the in-memory stroke list, is unchanged), and the local clear
leaves the in-memory stroke list unchanged whatever the durable delete's
outcome — the code never clears the list. -/
theorem c6_clear_leaves_store (w : WhiteboardState) :
    ((onClearEvent w).1 = w ∧
      ((onClearEvent w).2 = [] ∨ (onClearEvent w).2 = [CanvasOp.clearRect])) ∧
    ∀ (localUserId : String) (deleteSucceeds : Bool),
      clearCanvas localUserId deleteSucceeds w =
        (w, [CanvasOp.clearRect], [BroadcastMsg.clearMsg localUserId]) := by
  refine ⟨⟨?_, ?_⟩, fun u d => rfl⟩
  · cases h : w.ctx <;> simp [onClearEvent, h]
  · cases h : w.ctx
    · left
      simp [onClearEvent, h]
    · right
      simp [onClearEvent, h]

/-- C6 counterexample: after a successful durable delete the in-memory
stroke list is NOT cleared — `clearCanvas` with the delete succeeding leaves
a non-empty list in place, contradicting the claim that the list is cleared
exactly when the delete succeeds. -/
theorem c6_counterexample :
    ((clearCanvas "me" true
        { strokesStore := [⟨[⟨PointKind.start, 1, 2⟩], "#ffffff"⟩],
          ctx := some "#ffffff" }).1).strokesStore =
      [⟨[⟨PointKind.start, 1, 2⟩], "#ffffff"⟩] ∧
    ([⟨[⟨PointKind.start, 1, 2⟩], "#ffffff"⟩] : List StoredStroke) ≠ [] := by
  refine ⟨rfl, ?_⟩
  simp

/-- Helper: unfolding of `loadHistory` — the fetched records are appended to
the in-memory list in fetched order and drawn in fetched order, with the
context untouched. -/
theorem loadHistory_spec (data : List StrokeRecord) :
    ∀ w : WhiteboardState,
      (loadHistory w data).1.strokesStore =
          w.strokesStore ++ data.map (fun r => ⟨r.strokes, r.color⟩) ∧
      (loadHistory w data).1.ctx = w.ctx ∧
      (loadHistory w data).2 =
          (data.map fun r => drawStroke w.ctx r.strokes r.color).flatten := by
  induction data with
  | nil => intro w; simp [loadHistory]
  | cons record rest ih =>
      intro w
      obtain ⟨h1, h2, h3⟩ :=
        ih { w with strokesStore := w.strokesStore ++ [⟨record.strokes, record.color⟩] }
      refine ⟨?_, ?_, ?_⟩ <;> simp [loadHistory, h1, h2, h3]

/-- C7 amended: the history load draws and appends every fetched stroke in
fetched order, and the store's list operation returns exactly the room's
rows sorted by `created_at` ascending — so the replay that follows the
fetch is in ascending creation order. -/
theorem c7_history_replay :
    (∀ (w : WhiteboardState) (db : List StrokeRecord) (roomId : Int),
        (loadHistory w (listStrokes db roomId)).1.strokesStore =
            w.strokesStore ++
              (listStrokes db roomId).map (fun r => ⟨r.strokes, r.color⟩) ∧
        (loadHistory w (listStrokes db roomId)).2 =
            ((listStrokes db roomId).map
              fun r => drawStroke w.ctx r.strokes r.color).flatten)
    ∧ ∀ (db : List StrokeRecord) (roomId : Int),
        List.Sorted byCreatedAt (listStrokes db roomId) ∧
        (listStrokes db roomId).Perm (db.filter fun r => r.room_id = roomId) := by
  refine ⟨fun w db roomId =>
      ⟨(loadHistory_spec _ w).1, (loadHistory_spec _ w).2.2⟩,
    fun db roomId =>
      ⟨List.sorted_insertionSort byCreatedAt _, List.perm_insertionSort byCreatedAt _⟩⟩

/-- C7 counterexample: the history fetch is awaited inside the async
subscribe callback while the broadcast handlers are already live, so a
`draw_batch` delivered before the fetch resolves is drawn and appended
before the stored strokes are replayed — in this run the live stroke sits
before the stored one in the in-memory list. -/
theorem c7_counterexample :
    (runEvents "me" { strokesStore := [], ctx := some "#3ecf8e" }
        [ClientEvent.broadcastDrawBatch "other" [⟨PointKind.start, 5, 6⟩] "#f43f5e",
         ClientEvent.historyLoaded
           [⟨1, [⟨PointKind.start, 1, 1⟩], "#ffffff", 10⟩]]).strokesStore =
      [⟨[⟨PointKind.start, 5, 6⟩], "#f43f5e"⟩,
       ⟨[⟨PointKind.start, 1, 1⟩], "#ffffff"⟩] ∧
    (⟨[⟨PointKind.start, 5, 6⟩], "#f43f5e"⟩ : StoredStroke) ≠
      ⟨[⟨PointKind.start, 1, 1⟩], "#ffffff"⟩ := by
  refine ⟨rfl, ?_⟩
  decide

end Mernify
